import Mathlib

/- Verification of the flowrun workflow engine (src/flowrun/src/flowrun/main.py).
   The Python source is shallowly embedded: pure string manipulation is
   translated directly, and the effects of subprocesses, exec and HTTP
   transport are supplied by explicit oracle values describing what the
   external world did.  Machine behaviour of the engine itself (dispatch,
   interpolation, verdict computation) is modelled exactly. -/

/- Python values that can appear in a results map or a json body.
   Dictionary entries are a dedicated mutual inductive so that recursion
   over values is structural and computes inside the kernel. -/
mutual

inductive Value where
  | none
  | bool (b : Bool)
  | int (n : Int)
  | str (s : String)
  | dict (entries : Entries)

inductive Entries where
  | nil
  | cons (key : String) (val : Value) (rest : Entries)

end

/- Python repr and str of a value, as produced when the engine stringifies
   interpolation results and json body values. -/
mutual

def pyRepr : Value → String
  | Value.none => "None"
  | Value.bool b => if b then "True" else "False"
  | Value.int n => toString n
  | Value.str s => "\x27" ++ s ++ "\x27"
  | Value.dict es => "\x7b" ++ pyReprEntries es ++ "\x7d"

def pyReprEntries : Entries → String
  | Entries.nil => ""
  | Entries.cons k v Entries.nil => "\x27" ++ k ++ "\x27: " ++ pyRepr v
  | Entries.cons k v rest => "\x27" ++ k ++ "\x27: " ++ pyRepr v ++ ", " ++ pyReprEntries rest

end

/-- Python str() of a value: a bare string prints without quotes, anything
    else prints as its repr. -/
def pyStr : Value → String
  | Value.str s => s
  | v => pyRepr v

/-- Environment bindings, env in the source. -/
abbrev EnvMap := List (String × String)

/-- The shared results map: step name to the small record stored for it. -/
abbrev Results := List (String × List (String × Value))

def lbrace : Char := Char.ofNat 123

def rbrace : Char := Char.ofNat 125

def newlineChar : Char := Char.ofNat 10

def squote : Char := Char.ofNat 39

def dquote : Char := Char.ofNat 34

/-- Text of a whole placeholder, as match.group(0) rebuilds it in repl. -/
def wrapVar (v : String) : String := "\x7b\x7b" ++ v ++ "\x7d\x7d"

/-- Kernel friendly version of String.startsWith, over character lists. -/
def strStarts (s pre : String) : Bool := pre.data.isPrefixOf s.data

/-- Kernel friendly lower casing. -/
def strLower (s : String) : String := String.mk (s.data.map Char.toLower)

/-- Kernel friendly upper casing. -/
def strUpper (s : String) : String := String.mk (s.data.map Char.toUpper)

/-- Splitter over character lists with the same semantics as Python
    str.split for a fixed nonempty separator: scan left to right, cut at
    each non overlapping occurrence.  Fuel bounds the recursion by the
    length of the text. -/
def splitAux (sep : List Char) : Nat → List Char → List Char → List (List Char)
  | _, acc, [] => [acc.reverse]
  | 0, acc, l => [acc.reverse ++ l]
  | fuel + 1, acc, c :: rest =>
    if sep.isPrefixOf (c :: rest) then
      acc.reverse :: splitAux sep fuel [] ((c :: rest).drop sep.length)
    else splitAux sep fuel (c :: acc) rest

/-- Kernel friendly version of String.splitOn for a nonempty separator. -/
def strSplitOn (s sep : String) : List String :=
  (splitAux sep.data s.data.length [] s.data).map String.mk

def isQuoteChar (c : Char) : Bool := c = squote || c = dquote

/-- Python strip of quote characters from both ends of a step name. -/
def stripQuotes (s : String) : String :=
  String.mk (((s.data.dropWhile isQuoteChar).reverse.dropWhile isQuoteChar).reverse)

/-- Separator used by the source to split a steps placeholder: quote,
    closing bracket, dot. -/
def sepToken : String := "\x27]."

/-- The repl callback of interpolate in the source, applied to one captured
    group.  Unresolved references return the original placeholder text. -/
def replVar (env : EnvMap) (results : Results) (var : String) : String :=
  if strStarts var "env." then
    match env.lookup (var.drop 4) with
    | some v => v
    | Option.none => wrapVar var
  else if strStarts var "steps[" then
    match strSplitOn ((var.drop 7).dropRight 1) sepToken with
    | [rawName, key] =>
        match ((results.lookup (stripQuotes rawName)).getD []).lookup key with
        | some v => pyStr v
        | Option.none => wrapVar var
    | _ => wrapVar var
  else wrapVar var

/-- Scan for the lazily matched closing brace pair: the first two adjacent
    closing braces, failing on a newline first since dot does not match
    newline in the regex. -/
def findClose : List Char → Option (List Char × List Char)
  | [] => Option.none
  | [_] => Option.none
  | c1 :: c2 :: rest =>
    if c1 = rbrace ∧ c2 = rbrace then some ([], rest)
    else if c1 = newlineChar then Option.none
    else (findClose (c2 :: rest)).map (fun p => (c1 :: p.1, p.2))

/-- One pass of re.sub over the character list.  Fuel equals the initial
    length, which strictly bounds the recursion, so the zero case is never
    reached on a nonempty list. -/
def interpAuxF (env : EnvMap) (results : Results) : Nat → List Char → List Char
  | 0, l => l
  | fuel + 1, l =>
    match l with
    | [] => []
    | [c] => [c]
    | c1 :: c2 :: rest =>
      if c1 = lbrace ∧ c2 = lbrace then
        match findClose rest with
        | some (g, rest2) =>
            (replVar env results (String.mk g)).data ++ interpAuxF env results fuel rest2
        | Option.none => c1 :: interpAuxF env results fuel (c2 :: rest)
      else c1 :: interpAuxF env results fuel (c2 :: rest)

/-- The interpolate function of the source: substitute every double brace
    placeholder using replVar. -/
def interpolate (text : String) (env : EnvMap) (results : Results) : String :=
  String.mk (interpAuxF env results text.data.length text.data)

/-- The captured groups the regex scanner finds, in order; mirrors
    interpAuxF exactly. -/
def groupsAuxF : Nat → List Char → List (List Char)
  | 0, _ => []
  | fuel + 1, l =>
    match l with
    | [] => []
    | [_] => []
    | c1 :: c2 :: rest =>
      if c1 = lbrace ∧ c2 = lbrace then
        match findClose rest with
        | some (g, rest2) => g :: groupsAuxF fuel rest2
        | Option.none => groupsAuxF fuel (c2 :: rest)
      else groupsAuxF fuel (c2 :: rest)

/-- All placeholder groups the interpolator recognises in a text. -/
def placeholderGroups (text : String) : List String :=
  (groupsAuxF text.data.length text.data).map String.mk

/-- A validated workflow step, mirroring the Step class of the source. -/
structure Step where
  name : String
  type : String
  command : Option String
  code : Option String
  method : String
  url : Option String
  json : Option (List (String × Value))
  headers : Option (List (String × String))
  continue_on_error : Bool

/-- The untyped mapping handed to the Step constructor; each field models
    one data.get call with its default. -/
structure StepData where
  name : Option String := Option.none
  type : Option String := Option.none
  command : Option String := Option.none
  code : Option String := Option.none
  method : Option String := Option.none
  url : Option String := Option.none
  json : Option (List (String × Value)) := Option.none
  headers : Option (List (String × String)) := Option.none
  continue_on_error : Option Bool := Option.none

/-- The Step constructor: normalises fields and raises ValueError, modelled
    as Except.error, on an unknown type or a missing required field. -/
def mkStep (d : StepData) : Except String Step :=
  let ty := strLower (d.type.getD "")
  if ty ≠ "shell" ∧ ty ≠ "python" ∧ ty ≠ "http" then
    Except.error ("Unknown step type: " ++ ty)
  else if ty = "shell" ∧ (d.command.getD "") = "" then
    Except.error "Shell step requires \x27command\x27"
  else if ty = "python" ∧ (d.code.getD "") = "" then
    Except.error "Python step requires \x27code\x27"
  else if ty = "http" ∧ (d.url.getD "") = "" then
    Except.error "HTTP step requires \x27url\x27"
  else
    Except.ok
      { name := d.name.getD "Unnamed step"
        type := ty
        command := d.command
        code := d.code
        method := strUpper (d.method.getD "GET")
        url := d.url
        json := d.json
        headers := d.headers
        continue_on_error := d.continue_on_error.getD false }

/-- The loading loop of load_workflow: validate each raw step in order and
    abort on the first invalid one, before anything executes. -/
def loadSteps : List StepData → Except String (List Step)
  | [] => Except.ok []
  | d :: rest =>
    match mkStep d with
    | Except.error e => Except.error e
    | Except.ok s =>
      match loadSteps rest with
      | Except.error e => Except.error e
      | Except.ok ss => Except.ok (s :: ss)

/-- What the subprocess did for a shell step: ran to completion with an
    exit code and captured output, exceeded the 600 second timeout, or
    failed to spawn with an error message. -/
inductive ShellResult where
  | completed (code : Int) (stdoutText stderrText : String)
  | timedOut
  | failed (msg : String)

/-- What exec did for a python step: finished normally with captured
    output and a final local variable mapping, or raised, with the output
    captured so far and the formatted traceback. -/
inductive PyExec where
  | ok (stdoutText stderrText : String) (locals : List (String × Value))
  | fault (stdoutText traceText : String)

/-- An HTTP response as the transport returned it. -/
structure HttpResponse where
  status : Nat
  text : String

/-- What the HTTP transport did: delivered a response, or raised with an
    error message. -/
inductive HttpResult where
  | response (r : HttpResponse)
  | failure (msg : String)

/-- The behaviour of the external world for one step: one field per
    executor kind, of which the dispatch selects the relevant one. -/
structure ExtWorld where
  shell : ShellResult := ShellResult.completed 0 "" ""
  py : PyExec := PyExec.ok "" "" []
  http : HttpResult := HttpResult.failure ""

/-- Wall clock timeout passed to subprocess.run, in seconds. -/
def shellTimeoutSeconds : Nat := 600

/-- Request timeout passed to httpx.request, in seconds. -/
def httpTimeoutSeconds : Nat := 30

/-- The run_shell executor: completion passes the code and captured text
    through, timeout and spawn failure become the fixed triples of the
    source. -/
def run_shell : ShellResult → Int × String × String
  | ShellResult.completed c o e => (c, o, e)
  | ShellResult.timedOut => (124, "", "Command timed out")
  | ShellResult.failed m => (1, "", m)

/-- The run_python executor: on normal return the recorded value is the
    final binding of the variable named return, defaulting to Python None;
    on a raise the captured stdout and the traceback are returned with
    code 1 and no recorded value. -/
def run_python : PyExec → Int × String × String × Value
  | PyExec.ok o e l => (0, o, e, (l.lookup "return").getD Value.none)
  | PyExec.fault o tr => (1, o, tr, Value.none)

/-- The request run_http assembles before sending: url, header values and
    json body values are interpolated, each json value first passed
    through str. -/
structure HttpRequestData where
  method : String
  url : String
  headers : List (String × String)
  body : Option (List (String × String))

/-- Request construction of run_http, lines 138 to 153 of the source: a
    falsy json mapping is replaced by None, otherwise every value is
    stringified and interpolated. -/
def buildHttpRequest (step : Step) (env : EnvMap) (results : Results) : HttpRequestData :=
  { method := step.method
    url := interpolate (step.url.getD "") env results
    headers := (step.headers.getD []).map (fun kv => (kv.1, interpolate kv.2 env results))
    body :=
      match step.json with
      | Option.none => Option.none
      | some b =>
        if b.isEmpty then Option.none
        else some (b.map (fun kv => (kv.1, interpolate (pyStr kv.2) env results))) }

/-- Response handling of run_http: two hundred range means code 0 and
    empty stderr, anything else returns the status as the code with the
    body in stderr; output is the body, or a Status line plus the first
    500 characters and an ellipsis when the body is longer than 500. -/
def run_http : HttpResult → Int × String × String
  | HttpResult.response r =>
    let ok := 200 ≤ r.status ∧ r.status < 300
    let out :=
      if 500 < r.text.length then
        "Status: " ++ toString r.status ++ "\n" ++ r.text.take 500 ++ "..."
      else r.text
    let err := if ok then "" else r.text
    (if ok then 0 else (r.status : Int), out, err)
  | HttpResult.failure m => (1, "", m)

/-- The uniform per step outcome record assembled by execute_step. -/
structure Outcome where
  succeeded : Bool
  exitCode : Int
  stdout : String
  stderr : String

/-- Outcome assembly from an executor triple; success is exit code zero,
    line 201 of the source. -/
def mkOutcome (t : Int × String × String) : Outcome :=
  { succeeded := t.1 == 0, exitCode := t.1, stdout := t.2.1, stderr := t.2.2 }

/-- Python dict assignment on the results map: overwrite in place if the
    key exists, otherwise append. -/
def setKey (m : Results) (k : String) (v : List (String × Value)) : Results :=
  if m.any (fun p => p.1 == k) then m.map (fun p => if p.1 == k then (k, v) else p)
  else m ++ [(k, v)]

def Value.isNone : Value → Bool
  | Value.none => true
  | _ => false

/-- The execute_step function: dispatch on the step type, build the
    outcome, record a python return value when it is not None, and return
    success or continue_on_error as the loop control value, line 208. -/
def executeStep (step : Step) (w : ExtWorld) (env : EnvMap) (results : Results) :
    Bool × Outcome × Results :=
  if step.type = "shell" then
    let oc := mkOutcome (run_shell w.shell)
    (oc.succeeded || step.continue_on_error, oc, results)
  else if step.type = "python" then
    let t := run_python w.py
    let returned := t.2.2.2
    let results2 :=
      if returned.isNone then results else setKey results step.name [("result", returned)]
    let oc := mkOutcome (t.1, t.2.1, t.2.2.1)
    (oc.succeeded || step.continue_on_error, oc, results2)
  else
    let _req := buildHttpRequest step env results
    let oc := mkOutcome (run_http w.http)
    (oc.succeeded || step.continue_on_error, oc, results)

/-- The control value execute_step returns for a step, which depends only
    on the step and the world, not on the shared maps. -/
def stepEffOk (step : Step) (w : ExtWorld) : Bool :=
  (if step.type = "shell" then (run_shell w.shell).1 == 0
   else if step.type = "python" then (run_python w.py).1 == 0
   else (run_http w.http).1 == 0) || step.continue_on_error

/-- Sequential strategy of run, lines 241 to 247: execute in order, record
    the names of executed steps; on a control value of false mark the run
    failed and, unless verbose is set, stop. -/
def runSeq (verbose : Bool) (env : EnvMap) (results : Results) :
    List (Step × ExtWorld) → Bool × List String
  | [] => (true, [])
  | (s, w) :: rest =>
    let r := executeStep s w env results
    if r.1 then
      let tail := runSeq verbose env r.2.2 rest
      (tail.1, s.name :: tail.2)
    else if verbose then
      let tail := runSeq verbose env r.2.2 rest
      (false, s.name :: tail.2)
    else (false, [s.name])

/-- Parallel strategy, lines 248 to 254: one task per step, all dispatched;
    the shared results map is modelled by one linearisation of the writes.
    Returns the control value of every task and the executed names. -/
def runParGo (env : EnvMap) (results : Results) :
    List (Step × ExtWorld) → List Bool × List String
  | [] => ([], [])
  | (s, w) :: rest =>
    let r := executeStep s w env results
    let tail := runParGo env r.2.2 rest
    (r.1 :: tail.1, s.name :: tail.2)

/-- The run waits for every future and folds failure over all of them. -/
def runPar (env : EnvMap) (results : Results) (l : List (Step × ExtWorld)) :
    Bool × List String :=
  let r := runParGo env results l
  (r.1.all id, r.2)

/-- The run command after loading: empty workflows exit 0 immediately,
    otherwise the selected strategy runs and the process exit code is 0 on
    overall success and 1 on failure. -/
def runWorkflowExit (parallel verbose : Bool) (env : EnvMap)
    (l : List (Step × ExtWorld)) : Nat :=
  if l.isEmpty then 0
  else if (if parallel then runPar env [] l else runSeq verbose env [] l).1 then 0
  else 1

/-- The whole pipeline from raw step data: loading happens first and an
    invalid step aborts with its error before any step executes. -/
def runWorkflowFromData (parallel verbose : Bool) (env : EnvMap)
    (raws : List StepData) (ws : List ExtWorld) : Except String Nat :=
  match loadSteps raws with
  | Except.error e => Except.error e
  | Except.ok steps => Except.ok (runWorkflowExit parallel verbose env (steps.zip ws))

theorem executeStep_fst (step : Step) (w : ExtWorld) (env : EnvMap) (results : Results) :
    (executeStep step w env results).1 = stepEffOk step w := by
  unfold executeStep stepEffOk mkOutcome
  by_cases h1 : step.type = "shell"
  · simp [h1]
  · by_cases h2 : step.type = "python" <;> simp [h1, h2]

theorem runSeq_all_ok (verbose : Bool) (env : EnvMap) (l : List (Step × ExtWorld))
    (h : ∀ p ∈ l, stepEffOk p.1 p.2 = true) :
    ∀ results, runSeq verbose env results l = (true, l.map (fun p => p.1.name)) := by
  induction l with
  | nil => intro results; rfl
  | cons hd tl ih =>
    intro results
    obtain ⟨s, w⟩ := hd
    have hh : stepEffOk s w = true := h (s, w) (by simp)
    have ht : ∀ p ∈ tl, stepEffOk p.1 p.2 = true := fun p hp => h p (by simp [hp])
    simp only [runSeq, executeStep_fst, hh, if_true, List.map]
    rw [ih ht]

/-- Shell step that fails with exit code 1 but has continue_on_error set. -/
def softStep : Step :=
  { name := "A", type := "shell", command := some "exit 1", code := Option.none,
    method := "GET", url := Option.none, json := Option.none, headers := Option.none,
    continue_on_error := true }

def softWorld : ExtWorld := { shell := ShellResult.completed 1 "" "boom" }

/-- Shell step that succeeds. -/
def okStep : Step :=
  { name := "B", type := "shell", command := some "true", code := Option.none,
    method := "GET", url := Option.none, json := Option.none, headers := Option.none,
    continue_on_error := false }

def okWorld : ExtWorld := { shell := ShellResult.completed 0 "ok" "" }

/-- Claim C1, counterexample: a sequential run whose first step fails with
    continue_on_error set and whose second step succeeds executes both
    steps, yet runWorkflowExit returns 0, not the exit code 1 the claim
    requires.  The soft failure is invisible to the final verdict because
    execute_step returns success or continue_on_error as one boolean. -/
theorem c1_soft_failure_cex :
    (executeStep softStep softWorld [] []).2.1.succeeded = false
    ∧ softStep.continue_on_error = true
    ∧ (executeStep okStep okWorld [] []).2.1.succeeded = true
    ∧ (runSeq false [] [] [(softStep, softWorld), (okStep, okWorld)]).2 = ["A", "B"]
    ∧ runWorkflowExit false false [] [(softStep, softWorld), (okStep, okWorld)] = 0 := by
  decide

/-- Claim C1 (amended): in a sequential run in which every step either
    succeeds or fails with continue_on_error set, execution proceeds
    through every step, and the final verdict is success with process
    exit code 0: a soft failure does not make the overall run fail. -/
theorem c1_soft_failure_amended (verbose : Bool) (env : EnvMap)
    (l : List (Step × ExtWorld))
    (h : ∀ p ∈ l, stepEffOk p.1 p.2 = true) :
    runSeq verbose env [] l = (true, l.map (fun p => p.1.name))
    ∧ runWorkflowExit false verbose env l = 0 := by
  have h1 := runSeq_all_ok verbose env l h []
  refine ⟨h1, ?_⟩
  unfold runWorkflowExit
  by_cases he : l.isEmpty <;> simp [he, h1]

/-- Claim C1 witness: the amended theorem applied to the concrete
    two step run containing one soft failure. -/
theorem c1_soft_failure_amended_witness :
    (∀ p ∈ [(softStep, softWorld), (okStep, okWorld)], stepEffOk p.1 p.2 = true)
    ∧ runSeq false [] [] [(softStep, softWorld), (okStep, okWorld)] = (true, ["A", "B"])
    ∧ runWorkflowExit false false [] [(softStep, softWorld), (okStep, okWorld)] = 0 := by
  have h : ∀ p ∈ [(softStep, softWorld), (okStep, okWorld)], stepEffOk p.1 p.2 = true := by
    decide
  have h2 := c1_soft_failure_amended false [] [(softStep, softWorld), (okStep, okWorld)] h
  exact ⟨h, h2.1.trans (by decide), h2.2⟩

theorem runSeq_stops_on_hard (env : EnvMap) (post : List (Step × ExtWorld))
    (s : Step) (w : ExtWorld) (hs : stepEffOk s w = false) :
    ∀ pre : List (Step × ExtWorld), (∀ p ∈ pre, stepEffOk p.1 p.2 = true) →
    ∀ results, runSeq false env results (pre ++ (s, w) :: post)
      = (false, pre.map (fun p => p.1.name) ++ [s.name]) := by
  intro pre
  induction pre with
  | nil =>
    intro _ results
    simp only [List.nil_append, runSeq, executeStep_fst, hs, List.map]
    rfl
  | cons hd tl ih =>
    intro h results
    obtain ⟨s2, w2⟩ := hd
    have hh : stepEffOk s2 w2 = true := h (s2, w2) (by simp)
    have ht : ∀ p ∈ tl, stepEffOk p.1 p.2 = true := fun p hp => h p (by simp [hp])
    simp only [List.cons_append, runSeq, executeStep_fst, hh, if_true, List.map,
      List.append_eq]
    rw [ih ht]

/-- Hard failing step for the sequential halt claims. -/
def hardStep : Step :=
  { name := "H", type := "shell", command := some "exit 2", code := Option.none,
    method := "GET", url := Option.none, json := Option.none, headers := Option.none,
    continue_on_error := false }

def hardWorld : ExtWorld := { shell := ShellResult.completed 2 "" "" }

/-- Step declared after the hard failing one. -/
def afterStep : Step :=
  { name := "B2", type := "shell", command := some "true", code := Option.none,
    method := "GET", url := Option.none, json := Option.none, headers := Option.none,
    continue_on_error := false }

def afterWorld : ExtWorld := { shell := ShellResult.completed 0 "" "" }

/-- Claim C4, counterexample: with the verbose flag a sequential run does
    execute steps after a hard failure: both step names appear in the
    executed list even though the first step failed hard, so the claim
    does not hold for every sequential run. -/
theorem c4_hard_failure_cex :
    (executeStep hardStep hardWorld [] []).2.1.succeeded = false
    ∧ hardStep.continue_on_error = false
    ∧ (runSeq true [] [] [(hardStep, hardWorld), (afterStep, afterWorld)]).2 = ["H", "B2"]
    ∧ runWorkflowExit false true [] [(hardStep, hardWorld), (afterStep, afterWorld)] = 1 := by
  decide

/-- Claim C4 (amended): in a sequential run without the verbose flag,
    once a step with continue_on_error false fails, no later step runs:
    the executed names are exactly the successful prefix plus the failing
    step, and the run exits 1. -/
theorem c4_hard_failure_halts (env : EnvMap) (pre post : List (Step × ExtWorld))
    (s : Step) (w : ExtWorld)
    (hpre : ∀ p ∈ pre, stepEffOk p.1 p.2 = true) (hs : stepEffOk s w = false) :
    runSeq false env [] (pre ++ (s, w) :: post)
      = (false, pre.map (fun p => p.1.name) ++ [s.name])
    ∧ runWorkflowExit false false env (pre ++ (s, w) :: post) = 1 := by
  have h1 := runSeq_stops_on_hard env post s w hs pre hpre []
  refine ⟨h1, ?_⟩
  unfold runWorkflowExit
  have hne : (pre ++ (s, w) :: post).isEmpty = false := by
    cases pre <;> simp [List.isEmpty]
  simp [hne, h1]

/-- Claim C4 witness: the amended theorem applied to a concrete run with
    one succeeding step, then a hard failure, then a skipped step. -/
theorem c4_hard_failure_halts_witness :
    (∀ p ∈ [(okStep, okWorld)], stepEffOk p.1 p.2 = true)
    ∧ stepEffOk hardStep hardWorld = false
    ∧ runSeq false [] [] [(okStep, okWorld), (hardStep, hardWorld), (afterStep, afterWorld)]
        = (false, ["B", "H"])
    ∧ runWorkflowExit false false []
        [(okStep, okWorld), (hardStep, hardWorld), (afterStep, afterWorld)] = 1 := by
  have hpre : ∀ p ∈ [(okStep, okWorld)], stepEffOk p.1 p.2 = true := by decide
  have hs : stepEffOk hardStep hardWorld = false := by decide
  have h2 := c4_hard_failure_halts [] [(okStep, okWorld)] [(afterStep, afterWorld)]
    hardStep hardWorld hpre hs
  exact ⟨hpre, hs, h2.1.trans (by decide), h2.2⟩

/-- Claim C8: a completed shell subprocess passes its exit code through and
    succeeds exactly when that code is 0; exit code 3 gives a failed
    outcome with code 3; on timeout the outcome is the fixed failed, 124,
    Command timed out triple; and the wall clock timeout constant is 600
    seconds. -/
theorem c8_shell_exit_codes :
    (∀ c : Int, ∀ o e : String,
        (mkOutcome (run_shell (ShellResult.completed c o e))).exitCode = c
        ∧ ((mkOutcome (run_shell (ShellResult.completed c o e))).succeeded = true ↔ c = 0))
    ∧ mkOutcome (run_shell ShellResult.timedOut)
        = { succeeded := false, exitCode := 124, stdout := "", stderr := "Command timed out" }
    ∧ (mkOutcome (run_shell (ShellResult.completed 3 "" ""))).succeeded = false
    ∧ (mkOutcome (run_shell (ShellResult.completed 3 "" ""))).exitCode = 3
    ∧ shellTimeoutSeconds = 600 := by
  refine ⟨fun c o e => ⟨rfl, ?_⟩, rfl, rfl, rfl, rfl⟩
  simp [mkOutcome, run_shell]

theorem runParGo_spec (env : EnvMap) :
    ∀ (l : List (Step × ExtWorld)) (results : Results),
    runParGo env results l
      = (l.map (fun p => stepEffOk p.1 p.2), l.map (fun p => p.1.name)) := by
  intro l
  induction l with
  | nil => intro results; rfl
  | cons hd tl ih =>
    intro results
    obtain ⟨s, w⟩ := hd
    simp only [runParGo, executeStep_fst, List.map]
    rw [ih]

/-- Claim C9: in parallel mode the executed step names are exactly the
    declared list, each step once in declaration order of dispatch, and
    the overall verdict is success exactly when the control value of every
    dispatched step is true, so the verdict waits on all of them. -/
theorem c9_parallel_executes_all (env : EnvMap) (results : Results)
    (l : List (Step × ExtWorld)) :
    (runPar env results l).2 = l.map (fun p => p.1.name)
    ∧ ((runPar env results l).1 = true ↔ ∀ p ∈ l, stepEffOk p.1 p.2 = true) := by
  unfold runPar
  rw [runParGo_spec]
  refine ⟨rfl, ?_⟩
  simp [List.all_eq_true]

/-- Claim C5: every failure mode an executor can encounter is turned into
    an outcome with succeeded false and the error text in stderr, never an
    exception; and an invalid step makes loading fail, which aborts the
    pipeline with that error before any step executes. -/
theorem c5_failures_are_data :
    (∀ m : String, mkOutcome (run_shell (ShellResult.failed m))
        = { succeeded := false, exitCode := 1, stdout := "", stderr := m })
    ∧ mkOutcome (run_shell ShellResult.timedOut)
        = { succeeded := false, exitCode := 124, stdout := "", stderr := "Command timed out" }
    ∧ (∀ o tr : String,
        (let t := run_python (PyExec.fault o tr); mkOutcome (t.1, t.2.1, t.2.2.1))
          = { succeeded := false, exitCode := 1, stdout := o, stderr := tr })
    ∧ (∀ m : String, mkOutcome (run_http (HttpResult.failure m))
        = { succeeded := false, exitCode := 1, stdout := "", stderr := m })
    ∧ (∀ (parallel verbose : Bool) (env : EnvMap) (raws : List StepData)
          (ws : List ExtWorld) (e : String),
        loadSteps raws = Except.error e →
        runWorkflowFromData parallel verbose env raws ws = Except.error e) := by
  refine ⟨fun m => rfl, rfl, fun o tr => rfl, fun m => rfl, ?_⟩
  intro parallel verbose env raws ws e h
  unfold runWorkflowFromData
  rw [h]

/-- Claim C5 witness: a step with an unknown type makes loading fail and
    the pipeline aborts with the same error. -/
theorem c5_failures_are_data_witness :
    loadSteps [{ type := some "ftp" }] = Except.error "Unknown step type: ftp"
    ∧ runWorkflowFromData false false [] [{ type := some "ftp" }] []
        = Except.error "Unknown step type: ftp" := by
  have h : loadSteps [{ type := some "ftp" }] = Except.error "Unknown step type: ftp" := rfl
  exact ⟨h, c5_failures_are_data.2.2.2.2 false false [] [{ type := some "ftp" }] [] _ h⟩

/-- Claim C6 (amended): for a delivered response of status s, the outcome
    succeeds with exit code 0 exactly when s is in the two hundreds,
    otherwise the exit code is s and stderr is the body; the output is the
    body itself when it has at most 500 characters, and otherwise a Status
    line followed by the first 500 characters and an ellipsis marker. -/
theorem c6_http_response (s : Nat) (body : String) (hs : 100 ≤ s) :
    ((mkOutcome (run_http (HttpResult.response ⟨s, body⟩))).succeeded = true
        ↔ (200 ≤ s ∧ s < 300))
    ∧ (mkOutcome (run_http (HttpResult.response ⟨s, body⟩))).exitCode
        = (if 200 ≤ s ∧ s < 300 then 0 else (s : Int))
    ∧ (mkOutcome (run_http (HttpResult.response ⟨s, body⟩))).stderr
        = (if 200 ≤ s ∧ s < 300 then "" else body)
    ∧ (mkOutcome (run_http (HttpResult.response ⟨s, body⟩))).stdout
        = (if 500 < body.length then
            "Status: " ++ toString s ++ "\n" ++ body.take 500 ++ "..."
          else body) := by
  unfold run_http mkOutcome
  by_cases h2 : 200 ≤ s ∧ s < 300
  · simp [h2]
  · have hz : ¬((s : Int) = 0) := by omega
    simp [h2, hz]

/-- Claim C6 witness: the amended theorem at a 404 response with a short
    body, the mocked endpoint example of the specification. -/
theorem c6_http_response_witness :
    100 ≤ 404
    ∧ (((mkOutcome (run_http (HttpResult.response ⟨404, "not found"⟩))).succeeded = true
          ↔ (200 ≤ 404 ∧ 404 < 300))
        ∧ (mkOutcome (run_http (HttpResult.response ⟨404, "not found"⟩))).exitCode
            = (if 200 ≤ 404 ∧ 404 < 300 then 0 else ((404 : Nat) : Int))
        ∧ (mkOutcome (run_http (HttpResult.response ⟨404, "not found"⟩))).stderr
            = (if 200 ≤ 404 ∧ 404 < 300 then "" else "not found")
        ∧ (mkOutcome (run_http (HttpResult.response ⟨404, "not found"⟩))).stdout
            = (if 500 < "not found".length then
                "Status: " ++ toString (404 : Nat) ++ "\n" ++ "not found".take 500 ++ "..."
              else "not found")) :=
  ⟨by decide, c6_http_response 404 "not found" (by decide)⟩

/-- Body of 501 identical characters, one over the truncation limit. -/
def longBody : String := String.mk (List.replicate 501 'a')

theorem strLength_append : ∀ a b : String, (a ++ b).length = a.length + b.length
  | ⟨a⟩, ⟨b⟩ => List.length_append a b

/-- Claim C6, counterexample: for a body longer than 500 characters the
    output is not the truncated body plus ellipsis the claim describes; the
    code prepends a Status line to it. -/
theorem c6_http_truncation_cex :
    (mkOutcome (run_http (HttpResult.response ⟨200, longBody⟩))).stdout
      = "Status: " ++ toString (200 : Nat) ++ "\n" ++ longBody.take 500 ++ "..."
    ∧ (mkOutcome (run_http (HttpResult.response ⟨200, longBody⟩))).stdout
      ≠ longBody.take 500 ++ "..." := by
  have hlb : longBody.length = 501 := by
    show (List.replicate 501 'a').length = 501
    rw [List.length_replicate]
  have hlen : (500 : Nat) < longBody.length := by
    rw [hlb]
    omega
  have h1 : (mkOutcome (run_http (HttpResult.response ⟨200, longBody⟩))).stdout
      = "Status: " ++ toString (200 : Nat) ++ "\n" ++ longBody.take 500 ++ "..." := by
    unfold run_http mkOutcome
    simp [hlen]
  refine ⟨h1, ?_⟩
  rw [h1]
  intro h
  have h2 := congrArg String.length h
  have l1 : ("Status: " : String).length = 8 := rfl
  have l2 : (toString (200 : Nat)).length = 3 := rfl
  have l3 : ("\n" : String).length = 1 := rfl
  simp only [strLength_append, l1, l2, l3] at h2
  omega

/-- Claim C10: whenever a step declares a nonempty json mapping, the body
    of the request run_http assembles maps every key to the interpolation
    of the str image of its declared value, so every sent value is a
    string whatever the original type was. -/
theorem c10_json_values_stringified (step : Step) (env : EnvMap) (results : Results)
    (b : List (String × Value)) (hb : step.json = some b) (hne : b ≠ []) :
    (buildHttpRequest step env results).body
      = some (b.map (fun kv => (kv.1, interpolate (pyStr kv.2) env results))) := by
  unfold buildHttpRequest
  rw [hb]
  cases b with
  | nil => exact absurd rfl hne
  | cons hd tl => rfl

/-- Step declaring a json body with an integer, a boolean and a nested
    mapping as values. -/
def jsonStep : Step :=
  { name := "post", type := "http", command := Option.none, code := Option.none,
    method := "POST", url := some "http://x", json := some
      [("n", Value.int 5), ("flag", Value.bool true),
       ("d", Value.dict (Entries.cons "a" (Value.int 1) Entries.nil))],
    headers := Option.none, continue_on_error := false }

/-- Claim C10 witness: the theorem applied to the concrete step, and the
    resulting body spelled out: every value arrives as a string. -/
theorem c10_json_values_stringified_witness :
    jsonStep.json = some
      [("n", Value.int 5), ("flag", Value.bool true),
       ("d", Value.dict (Entries.cons "a" (Value.int 1) Entries.nil))]
    ∧ (buildHttpRequest jsonStep [] []).body
        = some ([("n", Value.int 5), ("flag", Value.bool true),
            ("d", Value.dict (Entries.cons "a" (Value.int 1) Entries.nil))].map
            (fun kv => (kv.1, interpolate (pyStr kv.2) [] [])))
    ∧ (buildHttpRequest jsonStep [] []).body
        = some [("n", "5"), ("flag", "True"), ("d", "\x7b\x27a\x27: 1\x7d")] := by
  refine ⟨rfl, c10_json_values_stringified jsonStep [] [] _ rfl ?_, by decide⟩
  exact List.cons_ne_nil _ _

theorem strData_append : ∀ a b : String, (a ++ b).data = a.data ++ b.data
  | ⟨_⟩, ⟨_⟩ => rfl

/-- Character form of a rebuilt placeholder around a captured group. -/
def wrapChars (g : List Char) : List Char := lbrace :: lbrace :: (g ++ [rbrace, rbrace])

theorem wrapVar_data (g : List Char) : (wrapVar (String.mk g)).data = wrapChars g := by
  show (("\x7b\x7b" ++ String.mk g) ++ "\x7d\x7d").data = wrapChars g
  rw [strData_append, strData_append]
  have h1 : ("\x7b\x7b" : String).data = [lbrace, lbrace] := by decide
  have h2 : ("\x7d\x7d" : String).data = [rbrace, rbrace] := by decide
  rw [h1, h2]
  show ([lbrace, lbrace] ++ g) ++ [rbrace, rbrace] = wrapChars g
  simp [wrapChars]

theorem findClose_decomp :
    ∀ l g r, findClose l = some (g, r) → l = g ++ rbrace :: rbrace :: r := by
  intro l
  induction l with
  | nil => intro g r h; simp [findClose] at h
  | cons c1 t ih =>
    intro g r h
    cases t with
    | nil => simp [findClose] at h
    | cons c2 rest =>
      simp only [findClose] at h
      by_cases hbr : c1 = rbrace ∧ c2 = rbrace
      · rw [if_pos hbr] at h
        cases h
        simp [hbr.1, hbr.2]
      · rw [if_neg hbr] at h
        by_cases hnl : c1 = newlineChar
        · rw [if_pos hnl] at h
          cases h
        · rw [if_neg hnl] at h
          cases hfc : findClose (c2 :: rest) with
          | none => rw [hfc] at h; cases h
          | some pr =>
            obtain ⟨g2, r2⟩ := pr
            rw [hfc] at h
            simp only [Option.map, Option.some.injEq, Prod.mk.injEq] at h
            obtain ⟨hg, hr⟩ := h
            subst hg
            subst hr
            have h3 := ih g2 r2 hfc
            rw [List.cons_append, ← h3]

/-- If the repl callback leaves every captured group of a text verbatim,
    one substitution pass returns the character list unchanged, whatever
    the fuel. -/
theorem interpAuxF_verbatim (env : EnvMap) (results : Results) :
    ∀ (fuel : Nat) (l : List Char),
      (∀ g ∈ groupsAuxF fuel l,
        replVar env results (String.mk g) = wrapVar (String.mk g)) →
      interpAuxF env results fuel l = l := by
  intro fuel
  induction fuel with
  | zero => intro l _; rfl
  | succ n ih =>
    intro l h
    cases l with
    | nil => rfl
    | cons c1 t =>
      cases t with
      | nil => rfl
      | cons c2 rest =>
        by_cases hb : c1 = lbrace ∧ c2 = lbrace
        · obtain ⟨hb1, hb2⟩ := hb
          subst hb1
          subst hb2
          cases hfc : findClose rest with
          | none =>
            have h2 : ∀ g ∈ groupsAuxF n (lbrace :: rest),
                replVar env results (String.mk g) = wrapVar (String.mk g) := by
              intro g hg
              apply h
              simp only [groupsAuxF, and_self, if_true, hfc]
              exact hg
            simp only [interpAuxF, and_self, if_true, hfc]
            rw [ih _ h2]
          | some pr =>
            obtain ⟨g, rest2⟩ := pr
            have hmem : g ∈ groupsAuxF (n + 1) (lbrace :: lbrace :: rest) := by
              simp only [groupsAuxF, and_self, if_true, hfc]
              exact List.mem_cons_self _ _
            have hhead := h g hmem
            have h2 : ∀ g2 ∈ groupsAuxF n rest2,
                replVar env results (String.mk g2) = wrapVar (String.mk g2) := by
              intro g2 hg
              apply h
              simp only [groupsAuxF, and_self, if_true, hfc]
              exact List.mem_cons_of_mem _ hg
            have hdec := findClose_decomp rest g rest2 hfc
            simp only [interpAuxF, and_self, if_true, hfc]
            rw [ih _ h2, hhead, wrapVar_data, hdec]
            simp [wrapChars]
        · have h2 : ∀ g ∈ groupsAuxF n (c2 :: rest),
              replVar env results (String.mk g) = wrapVar (String.mk g) := by
            intro g hg
            apply h
            simp only [groupsAuxF]
            rw [if_neg hb]
            exact hg
          simp only [interpAuxF]
          rw [if_neg hb, ih _ h2]

/-- Claim C7: a text in which the interpolator resolves no placeholder is
    returned unchanged: unresolved env references, unresolved step
    references and arbitrary other double brace content are all left
    verbatim, and the total function never raises. -/
theorem c7_unresolved_left_verbatim (t : String) (env : EnvMap) (results : Results)
    (h : ∀ g ∈ placeholderGroups t, replVar env results g = wrapVar g) :
    interpolate t env results = t := by
  obtain ⟨d⟩ := t
  unfold interpolate
  have h2 : ∀ g ∈ groupsAuxF (String.mk d).data.length (String.mk d).data,
      replVar env results (String.mk g) = wrapVar (String.mk g) := by
    intro g hg
    apply h
    unfold placeholderGroups
    exact List.mem_map_of_mem _ hg
  rw [interpAuxF_verbatim env results _ _ h2]

/-- Claim C7 witness: a text holding an unresolved env reference, an
    unresolved step reference and arbitrary other bracketed content is
    returned verbatim. -/
theorem c7_unresolved_left_verbatim_witness :
    (∀ g ∈ placeholderGroups
        "\x7b\x7benv.Y\x7d\x7d and \x7b\x7bsteps[\x27A\x27].z\x7d\x7d and \x7b\x7bjunk\x7d\x7d",
      replVar [("X", "5")] [("A", [("result", Value.int 1)])] g = wrapVar g)
    ∧ interpolate
        "\x7b\x7benv.Y\x7d\x7d and \x7b\x7bsteps[\x27A\x27].z\x7d\x7d and \x7b\x7bjunk\x7d\x7d"
        [("X", "5")] [("A", [("result", Value.int 1)])]
      = "\x7b\x7benv.Y\x7d\x7d and \x7b\x7bsteps[\x27A\x27].z\x7d\x7d and \x7b\x7bjunk\x7d\x7d" := by
  have h : ∀ g ∈ placeholderGroups
      "\x7b\x7benv.Y\x7d\x7d and \x7b\x7bsteps[\x27A\x27].z\x7d\x7d and \x7b\x7bjunk\x7d\x7d",
      replVar [("X", "5")] [("A", [("result", Value.int 1)])] g = wrapVar g := by decide
  exact ⟨h, c7_unresolved_left_verbatim _ _ _ h⟩

/-- Python step whose exec run binds the variable named return to 42. -/
def pyStepA : Step :=
  { name := "A", type := "python", command := Option.none, code := some "code text",
    method := "GET", url := Option.none, json := Option.none, headers := Option.none,
    continue_on_error := false }

def pyWorldA : ExtWorld :=
  { py := PyExec.ok "" ""
      [("results", Value.dict Entries.nil), ("return", Value.int 42)] }

/-- Claim C2, code bug: after the scripted step the results map does hold
    results of A equal to the record with key result and value 42, but a
    later interpolation of the steps placeholder for it returns the
    placeholder unchanged, not the stringified 42 the claim requires,
    because the source truncates the final character of the field name. -/
theorem c2_return_value_recorded_but_unreadable :
    (executeStep pyStepA pyWorldA [] []).2.2 = [("A", [("result", Value.int 42)])]
    ∧ interpolate "\x7b\x7bsteps[\x27A\x27].result\x7d\x7d" []
        (executeStep pyStepA pyWorldA [] []).2.2
      = "\x7b\x7bsteps[\x27A\x27].result\x7d\x7d"
    ∧ interpolate "\x7b\x7bsteps[\x27A\x27].result\x7d\x7d" []
        (executeStep pyStepA pyWorldA [] []).2.2 ≠ "42" := by
  refine ⟨rfl, by decide, by decide⟩

/-- Claim C3, code bug: with results of A holding result 42, the steps
    placeholder for field result is returned unchanged instead of 42; the
    slicing of the captured group drops the last character of the field, so
    the lookup key is resul, as the third conjunct shows: a field spelled
    with one extra character does resolve to 42. -/
theorem c3_step_field_lookup_truncated :
    interpolate "\x7b\x7bsteps[\x27A\x27].result\x7d\x7d" [] [("A", [("result", Value.int 42)])]
      = "\x7b\x7bsteps[\x27A\x27].result\x7d\x7d"
    ∧ interpolate "\x7b\x7bsteps[\x27A\x27].result\x7d\x7d" [] [("A", [("result", Value.int 42)])]
      ≠ "42"
    ∧ interpolate "\x7b\x7bsteps[\x27A\x27].resultX\x7d\x7d" [] [("A", [("result", Value.int 42)])]
      = "42" := by
  refine ⟨by decide, by decide, by decide⟩
